import Mathlib

/-!
Verification of the on-chain state access layer in
`src/client/src/utils/blockchain.ts` (blockvote2).

The TypeScript functions are shallowly embedded as pure Lean functions:
every remote call that can fail or throw is passed in as an explicit
`Option`-valued oracle (`none` models a thrown/rejected promise), the
browser `localStorage` cache is threaded as an explicit `Cache` value,
and `Date.now()` is passed in as an explicit `now` argument (the
original reads the clock several times during one call; modelling a
single instant is the standard idealisation for these properties).
JSON serialisation of candidate lists round-trips exactly (all fields
are JSON primitives), so the candidate cache is modelled with typed
values.  `Date` objects do NOT round-trip through JSON (they come back
as strings), which the model tracks explicitly with `TimestampValue`.
-/

namespace Blockvote

/-- Contract address constant from `blockchain.ts` line 6. -/
def CONTRACT_ADDRESS : String := "0xc0895D39fBBD1918067d5Fa41beDAF51d36665B5"

/-- One election as returned by the contract's `elections(id)` getter:
the fields the TypeScript layer reads (`exists`, `startTime`, `endTime`,
`name`).  Times are in seconds, as on chain. -/
structure Election where
  «exists» : Bool
  startTime : Nat
  endTime : Nat
  name : String
deriving DecidableEq

/-- A candidate object as assembled by `getAllCandidates` /
`createElection` (`{name, party, votes, index}`). -/
structure Candidate where
  name : String
  party : String
  votes : Nat
  index : Nat
deriving DecidableEq

/-- The JavaScript value sitting in a transaction record's `timestamp`
field.  Records built inside `blockchain.ts` hold a `Date` (modelled by
`date` with its millisecond value); records read back from
`localStorage` via `JSON.parse` hold the ISO string the `Date`
serialised to (modelled by `str`).  The `Transaction` interface declares
`timestamp: Date`, but `JSON.parse` is untyped, so both shapes occur at
runtime. -/
inductive TimestampValue where
  | date (ms : Nat)
  | str (s : String)
deriving DecidableEq

/-- `(b.timestamp?.getTime() || 0)`: on a `Date` this yields the
millisecond value; on a string (a JSON-revived record) `.getTime` is
undefined and the call throws a `TypeError`, modelled by `none`. -/
def getTimeOrZero : TimestampValue → Option Nat
  | .date ms => some ms
  | .str _ => none

/-- The `Transaction` interface of `blockchain.ts` (lines 537-546). -/
structure Transaction where
  hash : String
  timestamp : TimestampValue
  «from» : String
  «to» : String
  value : String
  method : String
  blockNumber : Nat
  status : String
deriving DecidableEq

/-- The `localStorage` keys this layer uses:
`election_<id>_candidates` (typed: JSON round-trips candidate lists
exactly), `lastElectionCreationTx` and `lastVoteCastTx` (stored in
their post-`JSON.parse` shape, i.e. with string timestamps). -/
structure Cache where
  candidates : Nat → Option (List Candidate)
  lastElectionCreationTx : Option Transaction
  lastVoteCastTx : Option Transaction

/-- Abstract rendering of `Date.prototype.toJSON`.  The claims depend
only on the stored timestamp being a `String` after the JSON round
trip, never on the text of that string. -/
def isoOf (ms : Nat) : String := toString ms

/-! ## Round Discovery: `getActiveElectionId` (lines 265-332) -/

/-- The chain reads `getActiveElectionId` performs: `currentElectionId()`
and `elections(id)`.  `none` models a rejected RPC call.  `now` is
`Math.floor(Date.now() / 1000)`. -/
structure Chain where
  currentElectionId : Option Nat
  elections : Nat → Option Election
  now : Nat

/-- Whether the election read for `id` succeeds, `exists`, and has its
`[startTime, endTime]` window containing `now` — the condition under
which the ascending scan (and the fast path) accepts an id. -/
def matchesActive (c : Chain) (id : Nat) : Bool :=
  match c.elections id with
  | none => false
  | some e => e.«exists» && (decide (e.startTime ≤ c.now) && decide (c.now ≤ e.endTime))

/-- The `for` loop of lines 301-323: try each id in order; a failed
`elections(id)` read is caught and skipped (`continue`), `exists=false`
is skipped, the first id whose window contains `now` is returned, and
`0` results when the list is exhausted (line 327). -/
def scanIds (c : Chain) : List Nat → Nat
  | [] => 0
  | id :: rest =>
    match c.elections id with
    | none => scanIds c rest
    | some election =>
      if election.«exists» then
        if decide (election.startTime ≤ c.now) && decide (c.now ≤ election.endTime) then id
        else scanIds c rest
      else scanIds c rest

/-- `getActiveElectionId` (lines 265-332).  Fast path: if
`currentElectionId > 0` and that election is active, return it
immediately (the cache lookup there only logs).  A throw from either
read in the fast path is caught by the outer handler, which returns 0.
Otherwise scan ids `1..max(currentElectionId, 10)`. -/
def getActiveElectionId (c : Chain) : Nat :=
  match c.currentElectionId with
  | none => 0
  | some currentIdNumber =>
    if currentIdNumber > 0 then
      match c.elections currentIdNumber with
      | none => 0
      | some election =>
        if election.«exists» && (decide (election.startTime ≤ c.now) && decide (c.now ≤ election.endTime)) then
          currentIdNumber
        else
          scanIds c (List.range' 1 (max currentIdNumber 10))
    else
      scanIds c (List.range' 1 (max currentIdNumber 10))

/-! ## Candidate/Tally Reader: `getAllCandidates` (449-497),
`getCandidate` (421-446), `getTotalVotes` (500-523) -/

/-- The shape of a successful `contract.getAllCandidates(electionId)`
response: three parallel arrays. -/
structure CandidatesResult where
  names : List String
  parties : List String
  votesCounts : List Nat
deriving DecidableEq

/-- The loop of lines 457-464: for `i` below `names.length`, build
`{name: names[i], party: parties[i], votes: votesCounts[i], index: i}`.
JavaScript yields `undefined` past the end of the shorter arrays; the
model uses the types' defaults there (the parallel arrays always have
equal length in the contract's ABI). -/
def buildCandidates (names parties : List String) (votesCounts : List Nat) : List Candidate :=
  (List.range names.length).map fun i =>
    { name := names.getD i (""), party := parties.getD i (""),
      votes := votesCounts.getD i 0, index := i }

/-- `getAllCandidates` (lines 449-497).  `resp = none` models a thrown
chain call.  On success the candidate list is cached only when nonempty
(the `candidates.length > 0` guard on line 467).  On failure the cached
list is returned verbatim when present, else `[]`. -/
def getAllCandidates (resp : Option CandidatesResult) (cache : Cache) (electionId : Nat) :
    List Candidate × Cache :=
  match resp with
  | some result =>
    let candidates := buildCandidates result.names result.parties result.votesCounts
    if candidates.length > 0 then
      (candidates,
        { cache with candidates := fun id =>
            if id = electionId then some candidates else cache.candidates id })
    else
      (candidates, cache)
  | none =>
    match cache.candidates electionId with
    | some parsed => (parsed, cache)
    | none => ([], cache)

/-- The shape of a successful `contract.getCandidate(electionId, idx)`
response. -/
structure CandidateInfo where
  name : String
  party : String
  votes : Nat
deriving DecidableEq

/-- `getCandidate` (lines 421-446): a single-candidate chain read; on
any failure it returns `null`.  It never touches `localStorage` — no
fallback read and no repair write — so the cache passes through
unchanged on every path. -/
def getCandidate (resp : Option CandidateInfo) (cache : Cache)
    (electionId candidateIndex : Nat) : Option Candidate × Cache :=
  match resp with
  | some info =>
    (some { name := info.name, party := info.party,
            votes := info.votes, index := candidateIndex }, cache)
  | none => (none, cache)

/-- `getTotalVotes` (lines 500-523).  `direct = none` models the inner
catch: the aggregate `contract.getTotalVotes` entrypoint is unsupported
or fails, and the total is derived by
`candidates.reduce((sum, c) => sum + (c.votes || 0), 0)` over
`getAllCandidates(electionId)` (which also performs that call's cache
effects). -/
def getTotalVotes (direct : Option Nat) (candResp : Option CandidatesResult)
    (cache : Cache) (electionId : Nat) : Nat × Cache :=
  match direct with
  | some total => (total, cache)
  | none =>
    let r := getAllCandidates candResp cache electionId
    (r.1.foldl (fun sum c => sum + c.votes) 0, r.2)

/-! ## Vote Submitter: `castVote` (lines 204-260) -/

/-- A JavaScript error object as the catch blocks see it: a `code`
(e.g. `"ACTION_REJECTED"` for a MetaMask user rejection,
`"CALL_EXCEPTION"` for a contract revert) and a `message`. -/
structure JsError where
  code : String
  message : String
deriving DecidableEq

/-- The fields of a confirmed receipt that `castVote` reads. -/
structure Receipt where
  hash : String
  «from» : String
  «to» : Option String
  blockNumber : Nat
  status : Nat
deriving DecidableEq

/-- The single field of `provider.getBlock(...)` that `castVote`
reads. -/
structure BlockInfo where
  timestamp : Nat
deriving DecidableEq

/-- The outcome of the signed submission path
(`eth_requestAccounts` → `contract.castVote` → `tx.wait()`): either a
confirmed receipt (with the optional follow-up `getBlock` result —
`none` models both a `null` block and a thrown lookup, which the inner
catch swallows), or any error thrown along the way (authorization
declined, revert, network). -/
inductive TxOutcome where
  | success (receipt : Receipt) (block : Option BlockInfo)
  | failure (error : JsError)

/-- What `castVote` returns to its caller. -/
structure CastVoteResult where
  success : Bool
  transactionHash : Option String
  error : Option String
deriving DecidableEq

/-- `castVote` (lines 204-260).  On success, stores the
`lastVoteCastTx` record (if the block lookup yielded one) — keyed
fields from the receipt, `timestamp: new Date((block?.timestamp ||
now) * 1000)` which JSON-serialises to a string in the cache — and
returns the hash.  On any thrown error the catch returns
`{success: false, error: error.message}`: the error's `code` is
discarded, and no cache write happens. -/
def castVote (hasEthereum : Bool) (electionId candidateIndex : Nat) (voterNINHash : String)
    (outcome : TxOutcome) (nowSec : Nat) (cache : Cache) : CastVoteResult × Cache :=
  if hasEthereum = false then
    ({ success := false, transactionHash := none,
       error := some ("MetaMask is not installed!") }, cache)
  else
    match outcome with
    | .failure e =>
      ({ success := false, transactionHash := none, error := some e.message }, cache)
    | .success receipt block =>
      let cacheAfter : Cache :=
        match block with
        | none => cache
        | some b =>
          { cache with lastVoteCastTx := some {
              hash := receipt.hash,
              timestamp := .str (isoOf ((if b.timestamp = 0 then nowSec else b.timestamp) * 1000)),
              «from» := receipt.«from»,
              «to» := receipt.«to».getD (""),
              value := ("0"),
              method := ("castVote"),
              blockNumber := receipt.blockNumber,
              status := if receipt.status = 1 then ("Confirmed") else ("Failed") } }
      ({ success := true, transactionHash := some receipt.hash, error := none }, cacheAfter)

/-! ## `createElection` with browser wallet (lines 80-201) -/

/-- The argument tuple actually passed to
`contract.createElection(name, startTime, endTime, candidateNames,
candidateParties)` on line 123. -/
structure CreateElectionTx where
  name : String
  startTime : Nat
  endTime : Nat
  candidateNames : List String
  candidateParties : List String
deriving DecidableEq

/-- The observable outcome of `createElection`'s validation and
submission prefix (lines 110-129): either an early
`{success: false, error}` return, or the transaction submitted to the
chain. -/
inductive CreateElectionOutcome where
  | rejected (error : String)
  | submitted (tx : CreateElectionTx)
deriving DecidableEq

/-- `createElection`'s validation and transaction construction
(lines 110-129): the caller-supplied times are validated against `now`
(`Math.floor(Date.now() / 1000)`), then discarded — the submitted
transaction always uses `now + 300` and `now + 3600`
(`adjustedStartTime` / `adjustedEndTime`, lines 120-121).  The rest of
the function (receipt bookkeeping) happens after submission and is not
needed by the claims about it. -/
def createElection (now : Nat) (name : String) (startTime endTime : Nat)
    (candidateNames candidateParties : List String) : CreateElectionOutcome :=
  if startTime ≤ now then .rejected ("Start time must be in the future")
  else if endTime ≤ now then .rejected ("End time must be in the future")
  else .submitted
    { name := name, startTime := now + 300, endTime := now + 3600,
      candidateNames := candidateNames, candidateParties := candidateParties }

/-! ## Privacy hash: `hashNIN` (lines 526-534)

`hashNIN` UTF-8-encodes the input, digests it with
`crypto.subtle.digest("SHA-256", ...)`, and hex-encodes the 32 digest
bytes with a `"0x"` prefix.  The platform digest is the standard
SHA-256 (FIPS 180-4), embedded here executably over byte lists; all
word arithmetic is `Nat` reduced mod `2^32`. -/

/-- `2^32`, the word modulus of SHA-256. -/
def M32 : Nat := 4294967296

/-- Rotate a word right by `n` bits, keeping 32 bits. -/
def rotr32 (n x : Nat) : Nat := ((x >>> n) ||| (x <<< (32 - n))) % M32

/-- SHA-256 `Ch`: bitwise complement within 32 bits is xor with
`0xFFFFFFFF`. -/
def sha256ch (x y z : Nat) : Nat := (x &&& y) ^^^ ((x ^^^ 4294967295) &&& z)

/-- SHA-256 `Maj`. -/
def sha256maj (x y z : Nat) : Nat := (x &&& y) ^^^ (x &&& z) ^^^ (y &&& z)

/-- SHA-256 `Σ0`. -/
def bigSigma0 (x : Nat) : Nat := rotr32 2 x ^^^ rotr32 13 x ^^^ rotr32 22 x

/-- SHA-256 `Σ1`. -/
def bigSigma1 (x : Nat) : Nat := rotr32 6 x ^^^ rotr32 11 x ^^^ rotr32 25 x

/-- SHA-256 `σ0`. -/
def smallSigma0 (x : Nat) : Nat := rotr32 7 x ^^^ rotr32 18 x ^^^ (x >>> 3)

/-- SHA-256 `σ1`. -/
def smallSigma1 (x : Nat) : Nat := rotr32 17 x ^^^ rotr32 19 x ^^^ (x >>> 10)

/-- The round constant table of FIPS 180-4 §4.2.2 (decimal, row-major,
four words per line). -/
def sha256K : List Nat :=
  [1116352408, 1899447441, 3049323471, 3921009573,
   961987163, 1508970993, 2453635748, 2870763221,
   3624381080, 310598401, 607225278, 1426881987,
   1925078388, 2162078206, 2614888103, 3248222580,
   3835390401, 4022224774, 264347078, 604807628,
   770255983, 1249150122, 1555081692, 1996064986,
   2554220882, 2821834349, 2952996808, 3210313671,
   3336571891, 3584528711, 113926993, 338241895,
   666307205, 773529912, 1294757372, 1396182291,
   1695183700, 1986661051, 2177026350, 2456956037,
   2730485921, 2820302411, 3259730800, 3345764771,
   3516065817, 3600352804, 4094571909, 275423344,
   430227734, 506948616, 659060556, 883997877,
   958139571, 1322822218, 1537002063, 1747873779,
   1955562222, 2024104815, 2227730452, 2361852424,
   2428436474, 2756734187, 3204031479, 3329325298]

/-- The eight working variables / hash state words of SHA-256. -/
structure Hash8 where
  a : Nat
  b : Nat
  c : Nat
  d : Nat
  e : Nat
  f : Nat
  g : Nat
  h : Nat
deriving DecidableEq

/-- The initial hash state of FIPS 180-4 §5.3.3 (decimal). -/
def sha256init : Hash8 :=
  { a := 1779033703, b := 3144134277, c := 1013904242, d := 2773480762,
    e := 1359893119, f := 2600822924, g := 528734635, h := 1541459225 }

/-- Big-endian 64-bit length field of the padding. -/
def lenBytes (n : Nat) : List Nat :=
  [(n >>> 56) % 256, (n >>> 48) % 256, (n >>> 40) % 256, (n >>> 32) % 256,
   (n >>> 24) % 256, (n >>> 16) % 256, (n >>> 8) % 256, n % 256]

/-- SHA-256 padding: append `0x80`, then zeros to 56 mod 64, then the
bit length as 8 big-endian bytes. -/
def sha256Pad (msg : List Nat) : List Nat :=
  let l := msg.length
  let k := (64 - (l + 9) % 64) % 64
  msg ++ [128] ++ List.replicate k 0 ++ lenBytes (l * 8)

/-- Split a byte list into 64-byte blocks (structural recursion on a
fuel bounded by the length, so the kernel can evaluate it; the fuel
never runs out because `drop 64` shortens a nonempty list). -/
def chunks64Go : Nat → List Nat → List (List Nat)
  | _, [] => []
  | 0, _ :: _ => []
  | fuel + 1, x :: xs => (x :: xs).take 64 :: chunks64Go fuel ((x :: xs).drop 64)

/-- Split a byte list into 64-byte blocks. -/
def chunks64 (l : List Nat) : List (List Nat) := chunks64Go l.length l

/-- The big-endian 32-bit word starting at byte `4*i` of a block. -/
def wordAt (block : List Nat) (i : Nat) : Nat :=
  block.getD (4 * i) 0 * 16777216 + block.getD (4 * i + 1) 0 * 65536 +
  block.getD (4 * i + 2) 0 * 256 + block.getD (4 * i + 3) 0

/-- Extend the 16 message words to the 64-entry message schedule. -/
def buildSchedule (w16 : List Nat) : List Nat :=
  (List.range 48).foldl
    (fun ws _ =>
      let n := ws.length
      ws ++ [(smallSigma1 (ws.getD (n - 2) 0) + ws.getD (n - 7) 0 +
              smallSigma0 (ws.getD (n - 15) 0) + ws.getD (n - 16) 0) % M32])
    w16

/-- One SHA-256 round on the working variables. -/
def roundStep (st : Hash8) (k w : Nat) : Hash8 :=
  let t1 := (st.h + bigSigma1 st.e + sha256ch st.e st.f st.g + k + w) % M32
  let t2 := (bigSigma0 st.a + sha256maj st.a st.b st.c) % M32
  { a := (t1 + t2) % M32, b := st.a, c := st.b, d := st.c,
    e := (st.d + t1) % M32, f := st.e, g := st.f, h := st.g }

/-- Compress one 64-byte block into the running hash. -/
def compressBlock (H : Hash8) (block : List Nat) : Hash8 :=
  let w := buildSchedule ((List.range 16).map (wordAt block))
  let st := (sha256K.zip w).foldl (fun st kw => roundStep st kw.1 kw.2) H
  { a := (H.a + st.a) % M32, b := (H.b + st.b) % M32, c := (H.c + st.c) % M32,
    d := (H.d + st.d) % M32, e := (H.e + st.e) % M32, f := (H.f + st.f) % M32,
    g := (H.g + st.g) % M32, h := (H.h + st.h) % M32 }

/-- Big-endian bytes of one 32-bit word. -/
def wordBytes (w : Nat) : List Nat :=
  [(w >>> 24) % 256, (w >>> 16) % 256, (w >>> 8) % 256, w % 256]

/-- The 32 digest bytes of a final hash state. -/
def digestBytes (H : Hash8) : List Nat :=
  ([H.a, H.b, H.c, H.d, H.e, H.f, H.g, H.h].map wordBytes).flatten

/-- SHA-256 over a byte list (the semantics of
`crypto.subtle.digest("SHA-256", data)`). -/
def sha256 (msg : List Nat) : List Nat :=
  digestBytes ((chunks64 (sha256Pad msg)).foldl compressBlock sha256init)

/-- `new TextEncoder().encode(nin)`: the UTF-8 bytes of the string. -/
def utf8Bytes (s : String) : List Nat := s.toUTF8.toList.map (fun b => b.toNat)

/-- One lowercase hex digit, as produced by `Number.prototype.toString(16)`
for a value below 16. -/
def hexDigit (n : Nat) : Char :=
  if n < 10 then Char.ofNat (48 + n) else Char.ofNat (87 + n)

/-- `b.toString(16).padStart(2, "0")` for a byte `b < 256`: exactly two
lowercase hex digits. -/
def byteHexChars (b : Nat) : List Char := [hexDigit (b / 16), hexDigit (b % 16)]

/-- `hashNIN` (lines 526-534): `"0x"` followed by the hex encoding of
the SHA-256 digest of the UTF-8 bytes of `nin`. -/
def hashNIN (nin : String) : String :=
  "0x" ++ String.mk (((sha256 (utf8Bytes nin)).map byteHexChars).flatten)

/-! ## History Reconstructor: `getContractTransactions` (lines 549-789) -/

/-- `needle` occurs at the head of `haystack` (character-wise). -/
def beginsWith : List Char → List Char → Bool
  | _, [] => true
  | [], _ :: _ => false
  | a :: as, b :: bs => a == b && beginsWith as bs

/-- `haystack.includes(needle)` on character lists
(`String.prototype.includes`). -/
def containsSeq : List Char → List Char → Bool
  | [], needle => needle.isEmpty
  | a :: as, needle => beginsWith (a :: as) needle || containsSeq as needle

/-- Lines 696-701: decode the method from the raw call data by
searching for the two known 4-byte selectors as hex substrings. -/
def decodeMethod (data : String) : String :=
  if containsSeq data.toList ("9112c1eb".toList) then ("createElection")
  else if containsSeq data.toList ("0121b93f".toList) then ("castVote")
  else ("Contract Interaction")

/-- `c.charCodeAt(0).toString(16).padStart(2, "0")`: base-16 digits of
the char code, left-padded to at least two digits (codes above `0xff`
keep all their digits — `padStart` never truncates). -/
def charCodeHex (c : Char) : List Char :=
  let ds := Nat.toDigits 16 c.toNat
  if ds.length < 2 then List.replicate (2 - ds.length) '0' ++ ds else ds

/-- Lines 611-615: the pseudo-hash of a synthesized creation record —
`"0x"` plus the first 64 chars of the hex char codes of
`election.name + id`. -/
def syntheticHash (name : String) (id : Nat) : String :=
  "0x" ++ String.mk ((((name ++ toString id).toList).map charCodeHex).flatten.take 64)

/-- Lines 610-623: the synthesized placeholder creation record for an
election whose event query failed: zero `from` address, the contract as
`to`, status `"Confirmed"`, block 0, and a timestamp one day before the
election's start (`startTime*1000 - 86400000`; Nat subtraction
truncates at 0 where JavaScript would go negative — irrelevant to the
claims, which never synthesize). -/
def syntheticCreationTx (name : String) (id : Nat) (startTime : Nat) : Transaction :=
  { hash := syntheticHash name id,
    timestamp := .date (startTime * 1000 - 86400000),
    «from» := "0x0000000000000000000000000000000000000000",
    «to» := CONTRACT_ADDRESS,
    method := ("createElection"),
    value := ("0"),
    blockNumber := 0,
    status := ("Confirmed") }

/-- An event from `queryFilter` together with the transaction, receipt
and block lookups the code resolves it with (lines 588-592, 632-635). -/
structure ResolvedEvent where
  transactionHash : String
  txValue : String
  receiptFrom : String
  receiptTo : String
  receiptBlockNumber : Nat
  receiptStatus : Nat
  blockTimestamp : Nat
deriving DecidableEq

/-- Lines 594-603: the record pushed for a resolved `ElectionCreated`
event. -/
def creationTxOfEvent (ev : ResolvedEvent) : Transaction :=
  { hash := ev.transactionHash,
    timestamp := .date (ev.blockTimestamp * 1000),
    «from» := ev.receiptFrom,
    «to» := ev.receiptTo,
    method := ("createElection"),
    value := ev.txValue,
    blockNumber := ev.receiptBlockNumber,
    status := if ev.receiptStatus = 1 then ("Confirmed") else ("Failed") }

/-- Lines 637-646: the record pushed for a resolved `VoteCast` event
(value is the literal `"0"`). -/
def voteTxOfEvent (ev : ResolvedEvent) : Transaction :=
  { hash := ev.transactionHash,
    timestamp := .date (ev.blockTimestamp * 1000),
    «from» := ev.receiptFrom,
    «to» := ev.receiptTo,
    method := ("castVote"),
    value := ("0"),
    blockNumber := ev.receiptBlockNumber,
    status := if ev.receiptStatus = 1 then ("Confirmed") else ("Failed") }

/-- A transaction object of a block fetched with
`provider.getBlock(i, true)`. -/
structure ScannedTx where
  hash : String
  «from» : String
  «to» : Option String
  value : String
  data : String
  blockNumber : Nat
deriving DecidableEq

/-- A block as the scan uses it. -/
structure ScannedBlock where
  timestamp : Nat
  transactions : List ScannedTx
deriving DecidableEq

/-- Line 682-686: a transaction involves the contract when its `to` or
`from` equals the contract address case-insensitively. -/
def txMatchesContract (tx : ScannedTx) : Bool :=
  (match tx.«to» with
   | some a => a.toLower == CONTRACT_ADDRESS.toLower
   | none => false) ||
  tx.«from».toLower == CONTRACT_ADDRESS.toLower

/-- Everything `getContractTransactions` can observe.  Each
`Option`-valued field models a remote lookup that may throw.
`creationEvents`/`voteEvents id` are the `queryFilter` results for
election `id`: `none` means the query itself threw; an inner `none`
means resolving that event's transaction/receipt/block threw.
`consoleResources` counts the `window.performance` resource entries
whose name includes `"console.log"` (lines 752-754), and `knownTx` is
the resolution of the hardcoded fallback hash (lines 757-763). -/
structure HistoryEnv where
  currentElectionId : Option Nat
  elections : Nat → Option Election
  creationEvents : Nat → Option (List (Option ResolvedEvent))
  voteEvents : Nat → Option (List (Option ResolvedEvent))
  blockNumber : Option Nat
  blocks : Nat → Option ScannedBlock
  receiptStatus : String → Option Nat
  consoleResources : Nat
  knownTx : Option ResolvedEvent

/-- Lines 631-647: push one record per resolved vote event, in order; a
throw while resolving an event aborts the remaining events of this
election (the pushes already made stay). -/
def processVoteEvents (acc : List Transaction) : List (Option ResolvedEvent) → List Transaction
  | [] => acc
  | none :: _ => acc
  | some ev :: rest => processVoteEvents (acc ++ [voteTxOfEvent ev]) rest

/-- Lines 561-658, one iteration: skip the election if its read throws
(`electionError`) or it does not exist; otherwise handle
`ElectionCreated` events — a successful query with events pushes the
first event's record, a successful query with no events pushes nothing,
and a throw anywhere in that block synthesizes a placeholder — then
handle `VoteCast` events (a throw there pushes nothing further). -/
def processElection (env : HistoryEnv) (id : Nat) (acc : List Transaction) : List Transaction :=
  match env.elections id with
  | none => acc
  | some election =>
    if election.«exists» then
      let acc1 := match env.creationEvents id with
        | some [] => acc
        | some (some ev :: _) => acc ++ [creationTxOfEvent ev]
        | some (none :: _) => acc ++ [syntheticCreationTx election.name id election.startTime]
        | none => acc ++ [syntheticCreationTx election.name id election.startTime]
      match env.voteEvents id with
      | none => acc1
      | some evs => processVoteEvents acc1 evs
    else acc

/-- Lines 689-713: process the contract-addressed transactions of one
block — skip hashes already collected, look up each receipt (a throw
aborts the rest of this block, keeping earlier pushes), decode the
method from the call data, and push. -/
def processBlockTxs (env : HistoryEnv) (blockTimestamp : Nat) :
    List ScannedTx → List Transaction → List Transaction
  | [], acc => acc
  | tx :: rest, acc =>
    if acc.any (fun t => t.hash == tx.hash) then
      processBlockTxs env blockTimestamp rest acc
    else
      match env.receiptStatus tx.hash with
      | none => acc
      | some status =>
        processBlockTxs env blockTimestamp rest (acc ++ [{
          hash := tx.hash,
          timestamp := .date (blockTimestamp * 1000),
          «from» := tx.«from»,
          «to» := tx.«to».getD (""),
          value := tx.value,
          method := decodeMethod tx.data,
          blockNumber := tx.blockNumber,
          status := if status = 1 then ("Confirmed") else ("Failed") }])

/-- The block numbers visited by the loop of lines 672-676: from
`latest` down in steps of 100 while `i ≥ max(0, latest - 10000)` (the
Nat subtraction in `startBlock` is exactly `Math.max(0, ...)`). -/
def scanIndices (latest : Nat) : List Nat :=
  let startBlock := latest - 10000
  (List.range ((latest - startBlock) / 100 + 1)).map (fun k => latest - k * 100)

/-- Lines 672-718: visit each block index while fewer than 20 records
are collected; a failed `getBlock` is logged and skipped. -/
def scanBlocks (env : HistoryEnv) : List Nat → List Transaction → List Transaction
  | [], acc => acc
  | i :: rest, acc =>
    if acc.length < 20 then
      scanBlocks env rest
        (match env.blocks i with
         | none => acc
         | some blk =>
             processBlockTxs env blk.timestamp (blk.transactions.filter txMatchesContract) acc)
    else acc

/-- Lines 756-778: the record pushed for the hardcoded known
transaction hash when every earlier layer produced nothing and a
console-log resource entry exists. -/
def knownTxRecord (ev : ResolvedEvent) : Transaction :=
  { hash := "0xb9980e0f5557844fcf9409074df1e3c86bb6c2aec5e4c6e9795250c899513ac9",
    timestamp := .date (ev.blockTimestamp * 1000),
    «from» := ev.receiptFrom,
    «to» := ev.receiptTo,
    method := ("createElection"),
    value := ev.txValue,
    blockNumber := ev.receiptBlockNumber,
    status := if ev.receiptStatus = 1 then ("Confirmed") else ("Failed") }

/-- Stable insertion into a descending-by-timestamp list (equal keys
keep their relative order, as JavaScript's stable `Array.sort` does).
Only called on lists whose timestamps are all `date` values;
`getTimeOrZero` then never fails and `getD 0` is the `|| 0` of the
comparator. -/
def insertDesc (t : Transaction) : List Transaction → List Transaction
  | [] => [t]
  | u :: us =>
    if (getTimeOrZero t.timestamp).getD 0 < (getTimeOrZero u.timestamp).getD 0 then
      u :: insertDesc t us
    else t :: u :: us

/-- A stable descending sort by timestamp. -/
def sortDescByTimestamp (l : List Transaction) : List Transaction :=
  l.foldr insertDesc []

/-- Lines 782-784: `transactions.sort((a, b) => (b.timestamp?.getTime()
|| 0) - (a.timestamp?.getTime() || 0))`.  With zero or one element the
comparator is never invoked.  With two or more elements every element
takes part in at least one comparison, so if any record's `timestamp`
is a string (a JSON-revived cached record), `.getTime()` is not a
function and the comparator throws a `TypeError`, which propagates out
of `Array.sort` — modelled by `none`. -/
def sortMaybe (l : List Transaction) : Option (List Transaction) :=
  if l.length ≤ 1 then some l
  else if l.any (fun t => getTimeOrZero t.timestamp == none) then none
  else some (sortDescByTimestamp l)

/-- `getContractTransactions` (lines 549-789).  Layer 1: per-election
event records (or synthesized placeholders).  Layer 2: the bounded
block scan.  Layer 3: the cached `lastElectionCreationTx` and
`lastVoteCastTx` records, each pushed only if its hash is not already
present.  Layer 4: the hardcoded known transaction, only when nothing
was collected at all and a console-log resource entry exists.  Finally
the list is sorted by timestamp descending; any throw inside the outer
`try` — including the comparator `TypeError` on cached records — is
caught and yields `[]`. -/
def getContractTransactions (env : HistoryEnv) (cache : Cache) : List Transaction :=
  match env.currentElectionId with
  | none => []
  | some electionCount =>
    let txs1 := (List.range' 1 electionCount).foldl
      (fun acc id => processElection env id acc) []
    let txs2 := match env.blockNumber with
      | none => txs1
      | some latest => scanBlocks env (scanIndices latest) txs1
    let txs3 := match cache.lastElectionCreationTx with
      | none => txs2
      | some txData =>
        if txs2.any (fun t => t.hash == txData.hash) then txs2 else txs2 ++ [txData]
    let txs4 := match cache.lastVoteCastTx with
      | none => txs3
      | some txData =>
        if txs3.any (fun t => t.hash == txData.hash) then txs3 else txs3 ++ [txData]
    let txs5 :=
      if txs4.length = 0 then
        if 0 < env.consoleResources then
          match env.knownTx with
          | some ev => txs4 ++ [knownTxRecord ev]
          | none => txs4
        else txs4
      else txs4
    match sortMaybe txs5 with
    | none => []
    | some sorted => sorted

/-! ## Shared fixtures and helper lemmas -/

/-- A cache with no entries at all. -/
def emptyCache : Cache :=
  { candidates := fun _ => none, lastElectionCreationTx := none, lastVoteCastTx := none }

/-- A stale cached candidate for election 3. -/
def staleCandidate : Candidate := { name := "Stale", party := "Old", votes := 7, index := 0 }

/-- A cache holding a stale candidate list for election 3. -/
def staleCache : Cache :=
  { emptyCache with candidates := fun id => if id = 3 then some [staleCandidate] else none }

/-- Folding `(sum, c) => sum + c.votes` equals the accumulator plus the
sum of the mapped vote counts. -/
theorem foldl_votes_eq_sum (l : List Candidate) :
    ∀ a : Nat, l.foldl (fun sum c => sum + c.votes) a = a + (l.map (fun c => c.votes)).sum := by
  induction l with
  | nil => intro a; simp
  | cons c cs ih =>
    intro a
    simp only [List.foldl_cons, List.map_cons, List.sum_cons, ih]
    omega

/-! ## C2 — `getAllCandidates` success path and the cache -/

/-- C2 (counterexample): a successful chain read that yields an empty
candidate list does NOT overwrite the stale cache entry for round 3 —
the `candidates.length > 0` guard (line 467) skips the write, so the
stale entry survives, contradicting the claim's "including when the
fetched list is empty". -/
theorem getAllCandidates_empty_read_keeps_stale_cache :
    (getAllCandidates (some { names := [], parties := [], votesCounts := [] }) staleCache 3).1
      = [] ∧
    (getAllCandidates (some { names := [], parties := [], votesCounts := [] }) staleCache 3).2.candidates 3
      = some [staleCandidate] ∧
    some [staleCandidate] ≠ some ([] : List Candidate) := by
  refine ⟨rfl, rfl, by decide⟩

/-- C2 (amended): on a successful chain read, `getAllCandidates`
returns exactly the freshly built candidate list and overwrites the
cache entry for that round with it whenever the fetched list is
nonempty; when the fetched list is empty the cache is left unchanged. -/
theorem getAllCandidates_success_overwrites_cache (r : CandidatesResult) (cache : Cache)
    (electionId : Nat) :
    (getAllCandidates (some r) cache electionId).1
      = buildCandidates r.names r.parties r.votesCounts ∧
    (getAllCandidates (some r) cache electionId).2
      = (if (buildCandidates r.names r.parties r.votesCounts).length > 0 then
          { cache with candidates := fun id =>
              if id = electionId then some (buildCandidates r.names r.parties r.votesCounts)
              else cache.candidates id }
         else cache) := by
  by_cases h : (buildCandidates r.names r.parties r.votesCounts).length > 0 <;>
    simp [getAllCandidates, h]

/-! ## C3 — `getAllCandidates` failure path -/

/-- C3: when the chain read fails, `getAllCandidates` returns the
cached list verbatim when one exists and `[]` when none does (the
`getD` collapses exactly those two cases), as a value rather than an
error, and the cache is not modified. -/
theorem getAllCandidates_failure_returns_cache (cache : Cache) (electionId : Nat) :
    (getAllCandidates none cache electionId).1 = (cache.candidates electionId).getD [] ∧
    (getAllCandidates none cache electionId).2 = cache := by
  cases h : cache.candidates electionId <;> simp [getAllCandidates, h]

/-! ## C4 — `getTotalVotes` fallback composition -/

/-- C4: when the direct aggregate entrypoint is unsupported or fails,
`getTotalVotes` returns the sum of `votes` over the list
`getAllCandidates` produces for that election. -/
theorem getTotalVotes_fallback_sums_candidates (candResp : Option CandidatesResult)
    (cache : Cache) (electionId : Nat) :
    (getTotalVotes none candResp cache electionId).1
      = ((getAllCandidates candResp cache electionId).1.map (fun c => c.votes)).sum := by
  simp [getTotalVotes, foldl_votes_eq_sum]

example :
    (getTotalVotes none
      (some { names := ["A", "B", "C"], parties := ["X", "Y", "Z"], votesCounts := [3, 5, 2] })
      emptyCache 1).1 = 10 := by decide

/-! ## C5 — `castVote` error path -/

/-- A MetaMask user-rejection error as ethers surfaces it. -/
def userDeclinedError : JsError := { code := "ACTION_REJECTED", message := "transaction failed" }

/-- A contract-revert error carrying the same message text. -/
def revertError : JsError := { code := "CALL_EXCEPTION", message := "transaction failed" }

/-- C5 (counterexample): `castVote`'s catch block (lines 256-259)
returns only `{success: false, error: error.message}` — unlike
`createElection` it never inspects `error.code` — so a user-declined
error and a contract revert with the same message produce identical
results and identical (unchanged) caches: the reported error is not
distinguishable in kind. -/
theorem castVote_error_kind_collapsed :
    userDeclinedError.code ≠ revertError.code ∧
    castVote true 1 0 ("0xabc") (.failure userDeclinedError) 1000 emptyCache
      = castVote true 1 0 ("0xabc") (.failure revertError) 1000 emptyCache := by
  exact ⟨by decide, rfl⟩

/-- C5 (amended): on any pre-confirmation error — a declined
authorization included — `castVote` performs no cache write (the
last-vote record is untouched) and reports `success: false` with only
the underlying error's message; no error-kind tag survives, so a user
rejection is distinguishable from a revert only through the message
text. -/
theorem castVote_failure_no_cache_write (e : JsError) (electionId candidateIndex : Nat)
    (voterNINHash : String) (nowSec : Nat) (cache : Cache) :
    castVote true electionId candidateIndex voterNINHash (.failure e) nowSec cache
      = ({ success := false, transactionHash := none, error := some e.message }, cache) := rfl

/-! ## C7 — `createElection` discards the supplied times -/

/-- C7: whenever both supplied instants pass the future-time validation
(lines 110-117), the transaction submitted on line 123 carries
`now + 300` and `now + 3600` (lines 120-121), independent of the
supplied `startTime` and `endTime`. -/
theorem createElection_discards_supplied_times (now startTime endTime : Nat) (name : String)
    (candidateNames candidateParties : List String)
    (hs : now < startTime) (he : now < endTime) :
    createElection now name startTime endTime candidateNames candidateParties
      = .submitted { name := name, startTime := now + 300, endTime := now + 3600,
                     candidateNames := candidateNames, candidateParties := candidateParties } := by
  simp only [createElection, if_neg (by omega : ¬ startTime ≤ now),
    if_neg (by omega : ¬ endTime ≤ now)]

/-- C7 witness: concrete instance with passing validation. -/
theorem createElection_discards_supplied_times_witness :
    100 < 200 ∧ 100 < 4000 ∧
    createElection 100 ("E") 200 4000 [("A")] [("P")]
      = .submitted { name := ("E"), startTime := 400, endTime := 3700,
                     candidateNames := [("A")], candidateParties := [("P")] } :=
  ⟨by decide, by decide,
    createElection_discards_supplied_times 100 200 4000 ("E") [("A")] [("P")]
      (by decide) (by decide)⟩

/-! ## C10 — `getCandidate` has no cache interaction -/

/-- C10: when the single-candidate chain read fails, `getCandidate`
returns `null` and the cache passes through untouched; moreover no path
of `getCandidate` (success included) ever writes the cache, and the
returned value never depends on it — the single-candidate path has no
fallback and no repair. -/
theorem getCandidate_failure_null_no_cache (resp : Option CandidateInfo) (cache other : Cache)
    (electionId candidateIndex : Nat) :
    getCandidate none cache electionId candidateIndex = (none, cache) ∧
    (getCandidate resp cache electionId candidateIndex).2 = cache ∧
    (getCandidate resp cache electionId candidateIndex).1
      = (getCandidate resp other electionId candidateIndex).1 := by
  cases resp <;> exact ⟨rfl, rfl, rfl⟩

/-! ## C1 / C8 — Round Discovery -/

/-- The ascending scan loop computes exactly the first id of the list
that matches (read succeeds, `exists`, window contains `now`), with 0
when none does. -/
theorem scanIds_eq_find (c : Chain) (l : List Nat) :
    scanIds c l = ((l.find? (fun id => matchesActive c id)).getD 0) := by
  induction l with
  | nil => rfl
  | cons i rest ih =>
    cases h : c.elections i with
    | none =>
      have hm : matchesActive c i = false := by simp [matchesActive, h]
      simp [scanIds, h, List.find?_cons, hm, ih]
    | some e =>
      cases hex : e.«exists» with
      | false =>
        have hm : matchesActive c i = false := by simp [matchesActive, h, hex]
        simp [scanIds, h, hex, List.find?_cons, hm, ih]
      | true =>
        cases hw : (decide (e.startTime ≤ c.now) && decide (c.now ≤ e.endTime)) with
        | false =>
          have hm : matchesActive c i = false := by simp [matchesActive, h, hex, ← hw]
          simp [scanIds, h, hex, hw, List.find?_cons, hm, ih]
        | true =>
          have hm : matchesActive c i = true := by simp [matchesActive, h, hex, ← hw]
          simp [scanIds, h, hex, hw, List.find?_cons, hm]

/-- `find?` over an ascending `range'` returns a matching element below
which nothing in the range matches. -/
theorem find_range'_first (p : Nat → Bool) :
    ∀ (k s m : Nat), (List.range' s k).find? p = some m →
      p m = true ∧ s ≤ m ∧ ∀ j, s ≤ j → j < m → p j = false := by
  intro k
  induction k with
  | zero => intro s m h; simp at h
  | succ k ih =>
    intro s m h
    rw [List.range'_succ] at h
    cases hp : p s with
    | true =>
      rw [List.find?_cons_of_pos _ hp] at h
      obtain rfl : s = m := by simpa using h
      exact ⟨hp, Nat.le_refl s, fun j h1 h2 => absurd (Nat.lt_of_le_of_lt h1 h2) (Nat.lt_irrefl s)⟩
    | false =>
      rw [List.find?_cons_of_neg _ (by simp [hp])] at h
      obtain ⟨h1, h2, h3⟩ := ih (s + 1) m h
      refine ⟨h1, by omega, fun j hj1 hj2 => ?_⟩
      rcases Nat.eq_or_lt_of_le hj1 with rfl | hlt
      · exact hp
      · exact h3 j hlt hj2

/-- C1 (counterexample): rounds 1 and 2 both `exist` and both windows
([5,25] for id 1, [10,20] for id 2) contain `now = 15`, yet
`getActiveElectionId` returns 2, not the smallest matching id 1: the
fast path (lines 273-295) returns `currentElectionId` whenever it is
active, before any ascending scan happens. -/
def chainTwoActive : Chain :=
  { currentElectionId := some 2,
    elections := fun id =>
      if id = 1 then some { «exists» := true, startTime := 5, endTime := 25, name := "A" }
      else if id = 2 then some { «exists» := true, startTime := 10, endTime := 20, name := "B" }
      else none,
    now := 15 }

/-- C1 (counterexample theorem): round 1 matches (exists, window
contains now) but discovery returns 2. -/
theorem getActiveElectionId_not_smallest :
    matchesActive chainTwoActive 1 = true ∧
    matchesActive chainTwoActive 2 = true ∧
    getActiveElectionId chainTwoActive = 2 ∧
    (2 : Nat) ≠ 1 := by
  refine ⟨by decide, by decide, by decide, by decide⟩

/-- C1 (amended): whenever the fast path does not fire — the current id
is 0, or its election reads back as inactive — `getActiveElectionId`
performs the ascending scan of `1..max(currentElectionId, 10)` and
returns its first match (0 when none), and any nonzero result is the
smallest positive matching id. -/
theorem getActiveElectionId_first_match (c : Chain) (n : Nat)
    (hn : c.currentElectionId = some n)
    (hfast : n = 0 ∨ ∃ e, c.elections n = some e ∧
      (e.«exists» && (decide (e.startTime ≤ c.now) && decide (c.now ≤ e.endTime))) = false) :
    getActiveElectionId c
      = (((List.range' 1 (max n 10)).find? (fun id => matchesActive c id)).getD 0) ∧
    ∀ m, 0 < m → getActiveElectionId c = m →
      matchesActive c m = true ∧ ∀ j, 0 < j → j < m → matchesActive c j = false := by
  have hscan : getActiveElectionId c = scanIds c (List.range' 1 (max n 10)) := by
    rcases hfast with rfl | ⟨e, he, hact⟩
    · simp [getActiveElectionId, hn]
    · rcases Nat.eq_zero_or_pos n with rfl | hpos
      · simp [getActiveElectionId, hn]
      · simp [getActiveElectionId, hn, hpos, he, hact]
  rw [hscan, scanIds_eq_find c]
  refine ⟨rfl, fun m hm hres => ?_⟩
  cases hf : (List.range' 1 (max n 10)).find? (fun id => matchesActive c id) with
  | none => rw [hf] at hres; simp at hres; omega
  | some v =>
    rw [hf] at hres
    simp at hres
    subst hres
    obtain ⟨h1, _, h3⟩ := find_range'_first _ _ _ _ hf
    exact ⟨h1, fun j hj1 hj2 => h3 j hj1 hj2⟩

/-- C1 witness: a chain where the current round (id 2) exists but is
not active at `now = 35`, while round 1's window [30,40] is: the scan
runs and both conclusions evaluate. -/
def chainScanW : Chain :=
  { currentElectionId := some 2,
    elections := fun id =>
      if id = 1 then some { «exists» := true, startTime := 30, endTime := 40, name := "A" }
      else if id = 2 then some { «exists» := true, startTime := 10, endTime := 20, name := "B" }
      else none,
    now := 35 }

/-- C1 witness theorem. -/
theorem getActiveElectionId_first_match_witness :
    getActiveElectionId chainScanW
      = (((List.range' 1 (max 2 10)).find? (fun id => matchesActive chainScanW id)).getD 0) ∧
    getActiveElectionId chainScanW = 1 := by
  have h := getActiveElectionId_first_match chainScanW 2 rfl
    (Or.inr ⟨{ «exists» := true, startTime := 10, endTime := 20, name := "B" }, rfl, by decide⟩)
  exact ⟨h.1, by decide⟩

/-- An inactive election used by the C8 witness. -/
def deadElection : Election := { «exists» := false, startTime := 0, endTime := 0, name := "D" }

/-- A chain for the C8 witness: id 1's read throws, id 2 exists=false,
nothing matches anywhere. -/
def chainDead : Chain :=
  { currentElectionId := some 3,
    elections := fun id => if id = 2 then some deadElection else none,
    now := 50 }

/-- C8: during the ascending scan (the loop of lines 301-323), a
per-id read failure is swallowed — the scan over `i :: rest` equals
the scan over `rest` — an `exists=false` round is likewise skipped
without error, and when no id in the probed range matches,
`getActiveElectionId` returns the sentinel 0. -/
theorem getActiveElectionId_error_handling (c : Chain) (i n : Nat) (rest : List Nat)
    (e : Election) :
    (c.elections i = none → scanIds c (i :: rest) = scanIds c rest) ∧
    (c.elections i = some e → e.«exists» = false → scanIds c (i :: rest) = scanIds c rest) ∧
    (c.currentElectionId = some n →
      (∀ id ∈ List.range' 1 (max n 10), matchesActive c id = false) →
      getActiveElectionId c = 0) := by
  refine ⟨fun h => by simp [scanIds, h], fun h hex => by simp [scanIds, h, hex], fun hn hall => ?_⟩
  have hfind : (List.range' 1 (max n 10)).find? (fun id => matchesActive c id) = none := by
    rw [List.find?_eq_none]
    intro x hx
    simp [hall x hx]
  rcases Nat.eq_zero_or_pos n with rfl | hpos
  · have hfind10 : (List.range' 1 10).find? (fun id => matchesActive c id) = none := by
      simpa using hfind
    simp [getActiveElectionId, hn, scanIds_eq_find, hfind10]
  · have hnr : n ∈ List.range' 1 (max n 10) := by
      rw [List.mem_range']
      refine ⟨n - 1, by omega, by omega⟩
    have hnm := hall n hnr
    cases he : c.elections n with
    | none => simp [getActiveElectionId, hn, hpos, he]
    | some e2 =>
      have : (e2.«exists» && (decide (e2.startTime ≤ c.now) && decide (c.now ≤ e2.endTime))) = false := by
        have := hnm
        rw [matchesActive, he] at this
        exact this
      simp [getActiveElectionId, hn, hpos, he, this, scanIds_eq_find, hfind]

/-- C8 witness: the three conclusions at the concrete `chainDead`,
each hypothesis discharged there. -/
theorem getActiveElectionId_error_handling_witness :
    scanIds chainDead (1 :: [5]) = scanIds chainDead [5] ∧
    scanIds chainDead (2 :: [5]) = scanIds chainDead [5] ∧
    getActiveElectionId chainDead = 0 := by
  refine ⟨(getActiveElectionId_error_handling chainDead 1 3 [5] deadElection).1 rfl,
    (getActiveElectionId_error_handling chainDead 2 3 [5] deadElection).2.1 rfl rfl,
    (getActiveElectionId_error_handling chainDead 1 3 [5] deadElection).2.2 rfl (by decide)⟩

/-! ## C9 — `hashNIN` is deterministic with fixed output shape -/

/-- The lowercase hexadecimal alphabet. -/
def hexAlphabet : List Char := "0123456789abcdef".toList

-- The embedded digest agrees with the FIPS 180-4 test vector for "abc"
-- (bytes [97, 98, 99]).
example :
    sha256 [97, 98, 99]
      = [186, 120, 22, 191, 143, 1, 207, 234, 65, 65, 64, 222, 93, 174, 34, 35,
         176, 3, 97, 163, 150, 23, 122, 156, 180, 16, 255, 97, 242, 0, 21, 173] := by decide

/-- Every byte of a SHA-256 digest is below 256 (each is reduced
mod 256 when serialised). -/
theorem sha256_mem_lt (msg : List Nat) : ∀ b ∈ sha256 msg, b < 256 := by
  intro b hb
  simp only [sha256, digestBytes] at hb
  rw [List.mem_flatten] at hb
  obtain ⟨lb, hlb, hbl⟩ := hb
  rw [List.mem_map] at hlb
  obtain ⟨w, _, rfl⟩ := hlb
  simp only [wordBytes, List.mem_cons, List.not_mem_nil, or_false] at hbl
  rcases hbl with rfl | rfl | rfl | rfl <;> exact Nat.mod_lt _ (by norm_num)

/-- The digest always serialises to 32 bytes. -/
theorem sha256_length (msg : List Nat) : (sha256 msg).length = 32 := rfl

/-- Hex-encoding a byte list doubles its length. -/
theorem flatten_map_byteHexChars_length (L : List Nat) :
    ((L.map byteHexChars).flatten).length = 2 * L.length := by
  induction L with
  | nil => rfl
  | cons b bs ih =>
    simp only [List.map_cons, List.flatten_cons, List.length_append, ih, byteHexChars]
    simp
    omega

/-- A hex digit of a value below 16 lies in the hex alphabet. -/
theorem hexDigit_mem_alphabet (m : Nat) (h : m < 16) : hexDigit m ∈ hexAlphabet := by
  interval_cases m <;> decide

/-- C9: `hashNIN` is deterministic (a pure function of its input) and
its output is always `"0x"` followed by exactly 64 lowercase
hexadecimal characters, for every input string. -/
theorem hashNIN_deterministic_hex64 (nin : String) :
    hashNIN nin = hashNIN nin ∧
    ∃ l : List Char, hashNIN nin = String.mk ('0' :: 'x' :: l) ∧
      l.length = 64 ∧ ∀ c ∈ l, c ∈ hexAlphabet := by
  refine ⟨rfl, ((sha256 (utf8Bytes nin)).map byteHexChars).flatten, rfl, ?_, ?_⟩
  · rw [flatten_map_byteHexChars_length, sha256_length]
  · intro c hc
    rw [List.mem_flatten] at hc
    obtain ⟨lc, hlc, hcl⟩ := hc
    rw [List.mem_map] at hlc
    obtain ⟨b, hb, rfl⟩ := hlc
    have hblt : b < 256 := sha256_mem_lt (utf8Bytes nin) b hb
    simp only [byteHexChars, List.mem_cons, List.not_mem_nil, or_false] at hcl
    rcases hcl with rfl | rfl
    · exact hexDigit_mem_alphabet _ (by omega)
    · exact hexDigit_mem_alphabet _ (by omega)

/-! ## C6 — History Reconstructor on the cached-records-only path -/

/-- The value the spec expects on the cached-records-only path: the
union of the cached "last creation" and "last vote" records,
deduplicated by transaction hash.  This definition follows the spec's
words (§4.5 step 4, §8), for comparison with the source-derived
`getContractTransactions`. -/
def specCachedUnion (cache : Cache) : List Transaction :=
  match cache.lastElectionCreationTx, cache.lastVoteCastTx with
  | none, none => []
  | some c, none => [c]
  | none, some v => [v]
  | some c, some v => if v.hash = c.hash then [c] else [c, v]

/-- A cached last-creation record, in its post-`JSON.parse` shape: the
`timestamp` field is the ISO string its `Date` serialised to. -/
def txCreationCached : Transaction :=
  { hash := "0xaaa1", timestamp := .str (isoOf 1700000001000), «from» := "0x11",
    «to» := CONTRACT_ADDRESS, value := "0", method := "createElection",
    blockNumber := 100, status := "Confirmed" }

/-- A cached last-vote record with a distinct hash. -/
def txVoteCached : Transaction :=
  { hash := "0xbbb2", timestamp := .str (isoOf 1700000002000), «from» := "0x22",
    «to» := CONTRACT_ADDRESS, value := "0", method := "castVote",
    blockNumber := 101, status := "Confirmed" }

/-- Both cached records present, distinct hashes. -/
def cacheBoth : Cache :=
  { candidates := fun _ => none, lastElectionCreationTx := some txCreationCached,
    lastVoteCastTx := some txVoteCached }

/-- Only the cached vote record present. -/
def cacheOnlyVote : Cache :=
  { candidates := fun _ => none, lastElectionCreationTx := none,
    lastVoteCastTx := some txVoteCached }

/-- Both cached slots hold records with the same hash (a duplicate to
be collapsed). -/
def cacheSameHash : Cache :=
  { candidates := fun _ => none, lastElectionCreationTx := some txCreationCached,
    lastVoteCastTx := some { txVoteCached with hash := "0xaaa1" } }

/-- An environment with one existing election whose event queries
succeed but find zero events, and a block scan that finds zero
contract transactions: every discovery layer yields nothing. -/
def envNoData : HistoryEnv :=
  { currentElectionId := some 1,
    elections := fun id =>
      if id = 1 then some { «exists» := true, startTime := 1000, endTime := 2000, name := "E" }
      else none,
    creationEvents := fun _ => some [],
    voteEvents := fun _ => some [],
    blockNumber := some 0,
    blocks := fun _ => some { timestamp := 0, transactions := [] },
    receiptStatus := fun _ => none,
    consoleResources := 0,
    knownTx := none }

/-- C6: with zero discoverable events and zero scannable contract
transactions, the claim (and the spec, and the `Transaction`
interface's `timestamp: Date`) promise the deduplicated cached records
sorted descending by timestamp.  The code only delivers that when at
most one record survives deduplication (conjuncts 3 and 4): with TWO
distinct cached records (conjunct 1) it returns `[]`, because cached
records come back from `JSON.parse` with string timestamps, the sort
comparator's `b.timestamp?.getTime()` is then not a function, and the
resulting `TypeError` is caught by the outer handler (line 785) which
returns the empty list — even though the expected union (conjunct 2)
is nonempty. -/
theorem getContractTransactions_cached_pair_lost :
    getContractTransactions envNoData cacheBoth = [] ∧
    specCachedUnion cacheBoth = [txCreationCached, txVoteCached] ∧
    txCreationCached.hash ≠ txVoteCached.hash ∧
    getContractTransactions envNoData cacheOnlyVote = [txVoteCached] ∧
    getContractTransactions envNoData cacheSameHash = [txCreationCached] := by
  refine ⟨rfl, rfl, by decide, rfl, rfl⟩

end Blockvote
